import Mathlib

/-!
# Scout-Edge: Trend Memory & Scoring Engine — shallow embedding

A shallow embedding of the core of the `scout-edge` repository
(`src/agents/memory.py`, `src/tools/github_tool.py`, `src/tools/arxiv_tool.py`)
together with proofs about the claims of its specification.

Conventions of the embedding:
* Python JSON-able dictionary values are modelled by `JVal`; a Python dict is
  an insertion-ordered association list (`PyDict`), matching CPython's
  insertion-ordered `dict`.
* The wall clock is passed explicitly: a function that calls
  `datetime.now().strftime("%Y-%m-%d %H:%M:%S")` receives the formatted string
  as a parameter `now`; consolidation, which subtracts datetimes, receives the
  current time as a count of seconds.
* File I/O is modelled by an explicit file state (`FileSt`) plus a fault
  parameter (`WriteFault`) injecting the possible failure points of
  `open(path, "w")` followed by `json.dump`: `open` itself may fail (file
  untouched), or `json.dump` may raise after writing a prefix (CPython's
  `open(_, "w")` truncates on open and `json.dump` streams output, so a
  mid-dump exception leaves a prefix of the new serialization on disk).
* Fallible Python code becomes `Except`; an uncaught exception kind is
  recorded by `PyExc`.
-/

/-- A JSON-able Python value as it occurs in trend records (atoms suffice for
every operation the claims touch). -/
inductive JVal where
  | str (s : String)
  | num (n : Int)
  | bool (b : Bool)
  | null
deriving DecidableEq, Repr

/-- A Python dict with `JVal` values: an insertion-ordered association list. -/
abbrev PyDict := List (String × JVal)

/-- A single trend record (`trend` in `memory.py`): a Python dict. -/
abbrev Trend := PyDict

/-- `d.get(k)` / `d[k]`: the value of the first binding of `k`. -/
def dget (d : PyDict) (k : String) : Option JVal :=
  (d.find? (fun p => p.1 == k)).map (fun p => p.2)

/-- `k in d`. -/
def hasKey (d : PyDict) (k : String) : Bool :=
  d.any (fun p => p.1 == k)

/-- `d[k] = v`: replace the binding of `k` in place if present, else append
(the insertion-order semantics of a CPython dict assignment). -/
def dset (d : PyDict) (k : String) (v : JVal) : PyDict :=
  if hasKey d k then d.map (fun p => if p.1 == k then (k, v) else p)
  else d ++ [(k, v)]

/-- The sort key `x.get("timestamp", "")` of `get_recent_trends` and
`consolidate_trends`.  A record whose `timestamp` value is not a string is
mapped to `""`; the theorems that rely on this key either hypothesize that
every `timestamp` value is a string (`tsOk`) or only feed it records that the
windowing step already guaranteed to carry a string timestamp. -/
def tsKey (t : Trend) : String :=
  match dget t "timestamp" with
  | some (JVal.str s) => s
  | _ => ""

/-- `t`'s `timestamp` field, when present, holds a string (so Python's string
comparison in `sorted` cannot raise `TypeError`). -/
def tsOk (t : Trend) : Bool :=
  match dget t "timestamp" with
  | some (JVal.str _) => true
  | some _ => false
  | none => true

/-- Python string `<=` (code-point lexicographic comparison), written over
character lists so that concrete instances reduce in the kernel. -/
def pyCharLe : List Char → List Char → Bool
  | [], _ => true
  | _ :: _, [] => false
  | x :: xs, y :: ys => if x = y then pyCharLe xs ys else decide (x < y)

def pyStrLe (a b : String) : Bool := pyCharLe a.toList b.toList

/-- The ordering used by `sorted(trends, key=lambda x: x.get("timestamp", ""),
reverse=True)`: `a` may come before `b` iff `a`'s key is ≥ `b`'s. -/
def tsGe (a b : Trend) : Prop := pyStrLe (tsKey b) (tsKey a) = true

instance : DecidableRel tsGe := fun a b => by
  unfold tsGe; infer_instance

instance : IsTotal Trend tsGe := by
  constructor
  have aux : ∀ xs ys, pyCharLe xs ys = true ∨ pyCharLe ys xs = true := by
    intro xs
    induction xs with
    | nil => intro ys; left; rfl
    | cons x xs ih =>
      intro ys
      cases ys with
      | nil => right; rfl
      | cons y ys' =>
        by_cases hxy : x = y
        · subst hxy
          rcases ih ys' with h | h
          · left; simpa [pyCharLe] using h
          · right; simpa [pyCharLe] using h
        · rcases lt_or_gt_of_ne hxy with h | h
          · left; simp [pyCharLe, hxy, h]
          · right; simp [pyCharLe, Ne.symm hxy, h]
  intro a b
  unfold tsGe pyStrLe
  exact aux (tsKey b).toList (tsKey a).toList

instance : IsTrans Trend tsGe := by
  constructor
  have aux : ∀ xs ys zs, pyCharLe xs ys = true → pyCharLe ys zs = true →
      pyCharLe xs zs = true := by
    intro xs
    induction xs with
    | nil => intro ys zs _ _; rfl
    | cons x xs ih =>
      intro ys zs h1 h2
      cases ys with
      | nil => simp [pyCharLe] at h1
      | cons y ys' =>
        cases zs with
        | nil => simp [pyCharLe] at h2
        | cons z zs' =>
          by_cases hxy : x = y <;> by_cases hyz : y = z
          · subst hxy; subst hyz
            simp only [pyCharLe, if_pos rfl] at h1 h2 ⊢
            exact ih ys' zs' h1 h2
          · subst hxy
            simp only [pyCharLe, if_pos rfl, if_neg hyz] at h2 ⊢
            exact h2
          · subst hyz
            simp only [pyCharLe, if_neg hxy] at h1 ⊢
            exact h1
          · simp only [pyCharLe, if_neg hxy] at h1
            simp only [pyCharLe, if_neg hyz] at h2
            have hxz : x < z := lt_trans (of_decide_eq_true h1)
              (of_decide_eq_true h2)
            have hne : x ≠ z := ne_of_lt hxz
            simp [pyCharLe, hne, hxz]
  intro a b c h1 h2
  unfold tsGe pyStrLe at h1 h2 ⊢
  exact aux (tsKey c).toList (tsKey b).toList (tsKey a).toList h2 h1

/-- Python's `sorted(..., key=lambda x: x.get("timestamp", ""), reverse=True)`
is a stable descending sort; we embed it as Mathlib's stable `insertionSort`
under `tsGe`, which is extensionally the same list. -/
def sortByTsDesc (l : List Trend) : List Trend :=
  l.insertionSort tsGe

/-! ## Serialization: `json.dump(..., f, indent=2)` -/

/-- JSON string escaping as performed by `json.dump` (the escapes that can
occur in the values this development manipulates). -/
def escapeChar (c : Char) : String :=
  if c = '"' then "\\\""
  else if c = '\\' then "\\\\"
  else if c = '\n' then "\\n"
  else if c = '\t' then "\\t"
  else if c = '\r' then "\\r"
  else String.singleton c

def encodeString (s : String) : String :=
  "\"" ++ String.join (s.toList.map escapeChar) ++ "\""

def encodeJVal : JVal → String
  | JVal.str s => encodeString s
  | JVal.num n => toString n
  | JVal.bool b => if b then "true" else "false"
  | JVal.null => "null"

/-- One trend record as serialized inside the `"trends"` array of
`json.dump(trends, f, indent=2)` (object keys indented to column 6). -/
def encodeTrend (t : Trend) : String :=
  match t with
  | [] => "\x7b\x7d"
  | _ =>
    "\x7b\n"
      ++ String.intercalate ",\n"
        (t.map (fun p => "      " ++ encodeString p.1 ++ ": " ++ encodeJVal p.2))
      ++ "\n    \x7d"

def encodeTrendList (ts : List Trend) : String :=
  match ts with
  | [] => "[]"
  | _ =>
    "[\n" ++ String.intercalate ",\n" (ts.map (fun t => "    " ++ encodeTrend t))
      ++ "\n  ]"

/-- The persisted trend store `<agent_id>_trends.json`
(`{"last_updated": ..., "trends": [...]}`), mirroring `AgentMemory._load_trends`
/ `_save_trends`. -/
structure TrendsDict where
  last_updated : String
  trends : List Trend
deriving DecidableEq, Repr

/-- `json.dump(trends, f, indent=2)` for the trend store. -/
def encodeTrends (st : TrendsDict) : String :=
  "\x7b\n  \"last_updated\": " ++ encodeString st.last_updated
    ++ ",\n  \"trends\": " ++ encodeTrendList st.trends ++ "\n\x7d"

/-- The persisted context store `<agent_id>_context.json`, mirroring
`AgentMemory._load_context` / `_save_context`. -/
structure ContextDict where
  last_updated : String
  user_preferences : PyDict
  session_data : PyDict
deriving DecidableEq, Repr

def encodeObj (d : PyDict) : String :=
  match d with
  | [] => "\x7b\x7d"
  | _ =>
    "\x7b\n"
      ++ String.intercalate ",\n"
        (d.map (fun p => "    " ++ encodeString p.1 ++ ": " ++ encodeJVal p.2))
      ++ "\n  \x7d"

/-- `json.dump(context, f, indent=2)` for the context store. -/
def encodeContext (c : ContextDict) : String :=
  "\x7b\n  \"last_updated\": " ++ encodeString c.last_updated
    ++ ",\n  \"user_preferences\": " ++ encodeObj c.user_preferences
    ++ ",\n  \"session_data\": " ++ encodeObj c.session_data ++ "\n\x7d"

/-! ## File model and the persistence helpers of `AgentMemory` -/

/-- Fault injection for `open(path, "w")` followed by `json.dump(obj, f)`:
either everything succeeds, `open` raises (file untouched), or `json.dump`
raises after `written` characters of the serialization reached the file
(CPython's `open(_, "w")` truncates the file on open and `json.dump` streams
its output, so a mid-dump exception — e.g. a `TypeError` on a value that is
not JSON serializable, or an `OSError` on a full disk — leaves a prefix of
the new serialization as the file content). -/
inductive WriteFault where
  | ok
  | openFail
  | dumpFail (written : Nat)
deriving DecidableEq, Repr

/-- On-disk state of a `<agent_id>_trends.json` file: absent, present but not
valid JSON (unreadable or holding partial/garbage bytes), or holding the
serialization of a `TrendsDict`. -/
inductive FileSt where
  | absent
  | corrupt (raw : String)
  | stored (d : TrendsDict)
deriving DecidableEq, Repr

/-- On-disk state of a `<agent_id>_context.json` file. -/
inductive CtxFileSt where
  | absent
  | corrupt (raw : String)
  | stored (d : ContextDict)
deriving DecidableEq, Repr

/-- `AgentMemory._save_trends` (memory.py:131-147): `try: open(_, "w");
json.dump(...); return True / except: return False`.  The returned pair is
(success flag, resulting file state). -/
def saveTrends (file : FileSt) (d : TrendsDict) : WriteFault → Bool × FileSt
  | WriteFault.ok => (true, FileSt.stored d)
  | WriteFault.openFail => (false, file)
  | WriteFault.dumpFail k => (false, FileSt.corrupt ((encodeTrends d).take k))

/-- `AgentMemory._save_context` (memory.py:174-190). -/
def saveContext (file : CtxFileSt) (c : ContextDict) : WriteFault → Bool × CtxFileSt
  | WriteFault.ok => (true, CtxFileSt.stored c)
  | WriteFault.openFail => (false, file)
  | WriteFault.dumpFail k => (false, CtxFileSt.corrupt ((encodeContext c).take k))

/-- `AgentMemory._load_trends` (memory.py:108-129).  `now` is
`datetime.now().strftime("%Y-%m-%d %H:%M:%S")`; `fault` is the write fault of
the `_save_trends` call made when the file is absent (its boolean result is
ignored by the code).  A `corrupt` file makes `json.load` raise, which the
`except` catches, returning the empty default; the file is left as it was. -/
def loadTrends (now : String) (file : FileSt) (fault : WriteFault) :
    TrendsDict × FileSt :=
  match file with
  | FileSt.stored d => (d, FileSt.stored d)
  | FileSt.absent =>
    let d : TrendsDict := ⟨now, []⟩
    (d, (saveTrends FileSt.absent d fault).2)
  | FileSt.corrupt raw => (⟨now, []⟩, FileSt.corrupt raw)

/-- `AgentMemory.add_trend` (memory.py:213-233): stamp a missing `timestamp`
with the current time, append to `trends`, refresh `last_updated`, persist via
`_save_trends` and return its boolean.  Returns
(success flag, new in-memory store, new file state). -/
def addTrend (now : String) (st : TrendsDict) (trend : Trend) (file : FileSt)
    (fault : WriteFault) : Bool × TrendsDict × FileSt :=
  let t := if hasKey trend "timestamp" then trend
           else dset trend "timestamp" (JVal.str now)
  let st' : TrendsDict := ⟨now, st.trends ++ [t]⟩
  let r := saveTrends file st' fault
  (r.1, st', r.2)

/-- `AgentMemory.get_recent_trends` (memory.py:273-293):
`sorted(trends, key=lambda x: x.get("timestamp", ""), reverse=True)[:n]`.
The function only reads `self.trends`; it mutates nothing, which the embedding
reflects by returning just the selected list. -/
def getRecentTrends (st : TrendsDict) (n : Nat) : List Trend :=
  (sortByTsDesc st.trends).take n

/-- `AgentMemory.clear_memory` (memory.py:318-352): reset the trend store and
the context (optionally keeping `user_preferences`), persist both (each save
catches its own exceptions and its boolean result is ignored), return `True`.
The chat-history collaborator is outside this spec's core.  Returns
(result, new trend store, new context, trend file, context file). -/
def clearMemory (now : String) (keepPreferences : Bool) (ctx : ContextDict)
    (tfile : FileSt) (cfile : CtxFileSt) (tFault cFault : WriteFault) :
    Bool × TrendsDict × ContextDict × FileSt × CtxFileSt :=
  let trends' : TrendsDict := ⟨now, []⟩
  let tr := saveTrends tfile trends' tFault
  let userPrefs := if keepPreferences then ctx.user_preferences else []
  let ctx' : ContextDict := ⟨now, userPrefs, []⟩
  let cr := saveContext cfile ctx' cFault
  (true, trends', ctx', tr.2, cr.2)

/-! ## Timestamps: `datetime.strptime(_, "%Y-%m-%d %H:%M:%S")` and day
differences -/

/-- Split a character list at every occurrence of the separator `c`
(the semantics of Python's `str.split` with a one-character separator, used
here to match the fixed separators of the format string). -/
def splitOnChar (c : Char) : List Char → List (List Char)
  | [] => [[]]
  | x :: xs =>
    if x = c then [] :: splitOnChar c xs
    else
      match splitOnChar c xs with
      | [] => [[x]]
      | y :: ys => (x :: y) :: ys

/-- One numeric field of a strptime pattern: a non-empty run of at most
`maxLen` decimal digits (`%Y` accepts up to 4 digits, the two-digit
directives up to 2; zero padding is optional). -/
def parseField (cs : List Char) (maxLen : Nat) : Option Nat :=
  if cs.length = 0 ∨ maxLen < cs.length then none
  else if cs.all Char.isDigit then
    some (cs.foldl (fun a c => a * 10 + (c.toNat - 48)) 0)
  else none

def isLeapYear (y : Nat) : Bool :=
  (y % 4 = 0 && y % 100 != 0) || y % 400 = 0

def daysInMonth (y m : Nat) : Nat :=
  if m = 2 then (if isLeapYear y then 29 else 28)
  else if m = 4 ∨ m = 6 ∨ m = 9 ∨ m = 11 then 30
  else 31

/-- Days from 1970-01-01 to the civil date `y-m-d` (proleptic Gregorian
calendar, the computation `datetime.date` performs). -/
def daysFromCivil (y m d : Int) : Int :=
  let y' := if m ≤ 2 then y - 1 else y
  let era := Int.fdiv y' 400
  let yoe := y' - era * 400
  let mp := Int.emod (m + 9) 12
  let doy := (153 * mp + 2) / 5 + d - 1
  let doe := yoe * 365 + yoe / 4 - yoe / 100 + doy
  era * 146097 + doe - 719468

/-- `datetime.strptime(s, "%Y-%m-%d %H:%M:%S")`, returned as seconds since
1970-01-01 00:00:00 (`none` when strptime raises `ValueError`): the shape
must match exactly and the fields must form a valid datetime
(year 1-9999, month 1-12, day within the month, H≤23, M≤59, S≤59). -/
def parseTs (s : String) : Option Int :=
  match splitOnChar ' ' s.toList with
  | [ds, ts] =>
    match splitOnChar '-' ds, splitOnChar ':' ts with
    | [ys, ms, dds], [hs, mins, ss] => do
      let y ← parseField ys 4
      let mo ← parseField ms 2
      let da ← parseField dds 2
      let h ← parseField hs 2
      let mi ← parseField mins 2
      let sec ← parseField ss 2
      if 1 ≤ y ∧ y ≤ 9999 ∧ 1 ≤ mo ∧ mo ≤ 12 ∧ 1 ≤ da ∧ da ≤ daysInMonth y mo
          ∧ h ≤ 23 ∧ mi ≤ 59 ∧ sec ≤ 59 then
        some (daysFromCivil (y : Int) (mo : Int) (da : Int) * 86400
          + (h : Int) * 3600 + (mi : Int) * 60 + (sec : Int))
      else none
    | _, _ => none
  | _ => none

/-- `(current_date - trend_date).days`: `datetime.timedelta` normalizes its
`days` component by flooring, so the day difference is the floor of the
second difference over 86400. -/
def daysDiff (current ts : Int) : Int :=
  Int.fdiv (current - ts) 86400

/-! ## `TrendMemoryManager.consolidate_trends` (memory.py:397-460) -/

/-- The per-record window test of the consolidation loop
(memory.py:422-436): `datetime.strptime(trend.get("timestamp", ""), ...)`,
then keep iff `(current_date - trend_date).days <= days`.  A missing
`timestamp` gives `""` (strptime raises `ValueError`), a non-string value
makes strptime raise `TypeError`; both are caught by the inner
`except Exception: continue`, i.e. the record is skipped. -/
def keepTrend (now days : Int) (t : Trend) : Bool :=
  match dget t "timestamp" with
  | some (JVal.str s) =>
    match parseTs s with
    | some secs => decide (daysDiff now secs ≤ days)
    | none => false
  | _ => false

/-- `trend["agent_id"] = agent_id` (memory.py:432). -/
def tagTrend (agentId : String) (t : Trend) : Trend :=
  dset t "agent_id" (JVal.str agentId)

/-- What reading one discovered agent's `<agent_id>_trends.json` inside the
consolidation loop can do: the `os.path.exists` guard sees no file (skip), or
`open`/`json.load` raises (`OSError`/`JSONDecodeError`, carrying `str(e)`),
or the store parses. -/
inductive LoadResult where
  | missing
  | raises (msg : String)
  | loaded (st : TrendsDict)
deriving DecidableEq, Repr

def isRaises : LoadResult → Bool
  | LoadResult.raises _ => true
  | _ => false

/-- The accumulation loop of `consolidate_trends` (memory.py:414-436): agents
in discovery order; a missing file is skipped; a raising read escapes to the
function's outer `except`, abandoning everything accumulated so far; a loaded
store contributes its windowed records tagged with the agent id. -/
def collectAgents (now days : Int) :
    List (String × LoadResult) → Except String (List Trend)
  | [] => Except.ok []
  | (aid, lr) :: rest =>
    match lr with
    | LoadResult.missing => collectAgents now days rest
    | LoadResult.raises msg => Except.error msg
    | LoadResult.loaded st => do
      let tail ← collectAgents now days rest
      Except.ok (((st.trends.filter (keepTrend now days)).map (tagTrend aid))
        ++ tail)

/-- The dictionary `consolidate_trends` returns: the consolidated report on
success (memory.py:445-451), or the `except` branch's error dictionary
(memory.py:456-460), which has no `lookback_days`/`trend_count`/`agent_count`
keys and an empty `trends` list. -/
inductive Report where
  | ok (consolidatedDate : Int) (lookbackDays : Int) (trendCount : Nat)
      (agentCount : Nat) (trends : List Trend)
  | err (consolidatedDate : Int) (msg : String) (trends : List Trend)
deriving DecidableEq, Repr

def Report.trendList : Report → List Trend
  | Report.ok _ _ _ _ ts => ts
  | Report.err _ _ ts => ts

/-- `TrendMemoryManager.consolidate_trends(days)` (memory.py:397-460).
`now` is `datetime.now()` as seconds; `agents` is the discovered agent list
(`get_all_agent_ids`, duplicate-free, enumeration order unspecified) paired
with what reading each store does.  On success the accumulated records are
sorted descending by timestamp string (Python's stable `sort(reverse=True)`),
`trend_count = len(all_trends)` and `agent_count = len(agent_ids)`. -/
def consolidateTrends (now days : Int) (agents : List (String × LoadResult)) :
    Report :=
  match collectAgents now days agents with
  | Except.error msg => Report.err now msg []
  | Except.ok allTrends =>
    let sortedTrends := sortByTsDesc allTrends
    Report.ok now days sortedTrends.length agents.length sortedTrends

/-! ## `GitHubTrendAnalyzer._calculate_score` (github_tool.py:215-239) -/

/-- Kinds of Python exceptions that can escape the embedded code. -/
inductive PyExc where
  | nameError
  | attributeError
deriving DecidableEq, Repr

/-- Round-half-to-even on an exact rational, the tie-breaking rule of
Python's `round`. -/
def roundHalfEven (q : Rat) : Int :=
  let f := q.floor
  let frac := q - (f : Rat)
  if frac < 1/2 then f
  else if 1/2 < frac then f + 1
  else if f % 2 = 0 then f else f + 1

/-- `round(x, 2)`. -/
def round2 (q : Rat) : Rat := (roundHalfEven (q * 100) : Rat) / 100

/-- The arithmetic written in `_calculate_score` (github_tool.py:235-239),
with float constants read as exact rationals:
`recency_score = max(0, 30 - days_since_update) / 30`,
`score = round(stars*0.5 + forks*0.3 + recency_score*0.2*100, 2)`.
`daysSinceUpdate` stands for `(now - updated_date).days`, or the sentinel
`365 * 10 = 3650` when `updated_at` fails to parse. -/
def scoreFormula (stars forks daysSinceUpdate : Int) : Rat :=
  let recencyScore : Rat := ((max 0 (30 - daysSinceUpdate) : Int) : Rat) / 30
  round2 ((stars : Rat) * (5/10) + (forks : Rat) * (3/10)
    + recencyScore * (2/10) * 100)

/-- `GitHubTrendAnalyzer._calculate_score(repo)` as the code actually
executes.  `github_tool.py` never imports `datetime` (its imports are
`logging`, `typing`, `requests`, `langchain.tools`, `pydantic`, `config`),
so evaluating `datetime.fromisoformat(updated_at_str)` at line 226 raises
`NameError`, which the surrounding `except (ValueError, TypeError)` clause
does not catch; the exception escapes to the caller.  When the present
`updated_at` value is not a string, line 224's `updated_at_str.endswith('Z')`
raises `AttributeError` first (also uncaught). -/
def calculateScore (repo : Trend) : Except PyExc Rat :=
  let updatedAt := (dget repo "updated_at").getD (JVal.str "2000-01-01T00:00:00Z")
  match updatedAt with
  | JVal.str _ => Except.error PyExc.nameError
  | _ => Except.error PyExc.attributeError

/-! ## Collection caps: `GitHubTrendAnalyzer.collect_data`
(github_tool.py:129-164) and `ArxivTrendAnalyzer.get_recent_papers`
(arxiv_tool.py:117-147) -/

/-- What one loop iteration of `collect_data` appends for one tag, given the
list the search returned: nothing when the list is empty or its first element
carries an `"error"` key, else the first `perTag` results
(`all_repos.extend(repos[:repos_per_tag])`; a `{"message": ...}` placeholder
has no `"error"` key and is appended like a result). -/
def tagChunk (perTag : Nat) (repos : List PyDict) : List PyDict :=
  match repos with
  | [] => []
  | r0 :: _ => if hasKey r0 "error" then [] else repos.take perTag

/-- `GitHubTrendAnalyzer.collect_data(days, max_repos)`:
`repos_per_tag = max_repos // len(self.tags) if self.tags else max_repos`,
then one `self.github_tool._run(query=tag)` call per configured tag.  `run`
is the black-box search collaborator.  The embedding also returns the list of
queries issued, in order, to make the number of search calls observable. -/
def collectData (tags : List String) (run : String → List PyDict)
    (maxRepos : Nat) : List String × List PyDict :=
  let reposPerTag := if tags.isEmpty then maxRepos else maxRepos / tags.length
  tags.foldl
    (fun acc tag => (acc.1 ++ [tag], acc.2 ++ tagChunk reposPerTag (run tag)))
    ([], [])

/-- `ArxivTrendAnalyzer.get_recent_papers(days, max_papers)`: one
`self.arxiv_tool._run(query=..., max_results=max_papers // len(self.categories),
...)` call per category; a `_run` failure returns an error dict instead of a
list (`none` here), which the `isinstance(papers, list)` guard skips. -/
def getRecentPapers (categories : List String)
    (search : String → Nat → Option (List PyDict)) (maxPapers : Nat) :
    List PyDict :=
  categories.foldl
    (fun acc c => acc ++ (search c (maxPapers / categories.length)).getD [])
    []


/-! ## Spec-side characterization of the consolidation accumulation, and
concrete example data -/

/-- The list the accumulation loop of `consolidate_trends` builds when every
discovered agent's store loads: per agent (in enumeration order) the windowed
records of its store, tagged with the agent id, concatenated.
`collectAgents_all_loaded` proves the loop computes exactly this. -/
def windowedAll (now days : Int) (stores : List (String × TrendsDict)) :
    List Trend :=
  (stores.map
    (fun p => (p.2.trends.filter (keepTrend now days)).map (tagTrend p.1))).flatten

/-- 2024-03-31 12:00:00 as seconds since 1970-01-01 00:00:00. -/
def exNow : Int := 1711886400

/-- Example agent store A: records aged 1, 10 and 40 days relative to
`exNow`. -/
def exStoreA : TrendsDict :=
  ⟨"2024-03-30 12:00:00",
    [[("title", JVal.str "a1"), ("timestamp", JVal.str "2024-03-30 12:00:00")],
     [("title", JVal.str "a10"), ("timestamp", JVal.str "2024-03-21 12:00:00")],
     [("title", JVal.str "a40"), ("timestamp", JVal.str "2024-02-20 12:00:00")]]⟩

/-- Example agent store B: records aged 5 and 20 days relative to `exNow`. -/
def exStoreB : TrendsDict :=
  ⟨"2024-03-26 12:00:00",
    [[("title", JVal.str "b5"), ("timestamp", JVal.str "2024-03-26 12:00:00")],
     [("title", JVal.str "b20"), ("timestamp", JVal.str "2024-03-11 12:00:00")]]⟩

/-- Example store for `get_recent_trends`: two records, the later one stored
second. -/
def exStoreC6 : TrendsDict :=
  ⟨"2024-01-03 00:00:00",
    [[("timestamp", JVal.str "2024-01-02 00:00:00")],
     [("timestamp", JVal.str "2024-01-03 00:00:00")]]⟩

/-- A concrete search collaborator returning one repository for every
query. -/
def exRun : String → List PyDict := fun _ => [[("name", JVal.str "r")]]

/-- A concrete arxiv collaborator whose every call fails (returns the error
dict, i.e. not a list). -/
def exSearch : String → Nat → Option (List PyDict) := fun _ _ => none

/-! ## Helper lemmas -/

theorem pyCharLe_refl (xs : List Char) : pyCharLe xs xs = true := by
  induction xs with
  | nil => rfl
  | cons x xs ih => simpa [pyCharLe] using ih

theorem pyStrLe_refl (a : String) : pyStrLe a a = true :=
  pyCharLe_refl a.toList

theorem dget_map_set_of_hasKey (d : PyDict) (k : String) (v : JVal)
    (h : hasKey d k = true) :
    dget (d.map (fun p => if p.1 == k then (k, v) else p)) k = some v := by
  induction d with
  | nil => simp [hasKey] at h
  | cons q d ih =>
    by_cases hq : q.1 == k
    · simp [dget, List.find?, hq]
    · have h' : hasKey d k = true := by
        simpa [hasKey, hq] using h
      simp only [List.map_cons, if_neg hq]
      simpa [dget, List.find?, hq] using ih h'

theorem dget_append_single_of_not_hasKey (d : PyDict) (k : String) (v : JVal)
    (h : hasKey d k = false) :
    dget (d ++ [(k, v)]) k = some v := by
  induction d with
  | nil => simp [dget, List.find?]
  | cons q d ih =>
    have hq : (q.1 == k) = false := by
      by_contra hc
      simp only [Bool.not_eq_false] at hc
      simp [hasKey, hc] at h
    have h' : hasKey d k = false := by
      simpa [hasKey, hq] using h
    simpa [dget, List.find?, hq] using ih h'

theorem dget_dset_self (d : PyDict) (k : String) (v : JVal) :
    dget (dset d k v) k = some v := by
  unfold dset
  by_cases h : hasKey d k
  · rw [if_pos h]; exact dget_map_set_of_hasKey d k v h
  · rw [if_neg h]
    exact dget_append_single_of_not_hasKey d k v (by simpa using h)

/-! ## Helper lemmas about the stable descending sort -/

theorem sortByTsDesc_pairwise (l : List Trend) :
    (sortByTsDesc l).Pairwise tsGe :=
  List.sorted_insertionSort tsGe l

theorem sortByTsDesc_perm (l : List Trend) : List.Perm (sortByTsDesc l) l :=
  List.perm_insertionSort tsGe l

theorem sortByTsDesc_length (l : List Trend) :
    (sortByTsDesc l).length = l.length :=
  (sortByTsDesc_perm l).length_eq

/-- Stability of the embedded sort: restricting the sorted list to the records
of any one timestamp key reproduces exactly the original-order sublist, i.e.
equal keys keep their relative input order. -/
theorem sortByTsDesc_filter_key (l : List Trend) (k : String) :
    (sortByTsDesc l).filter (fun t => tsKey t == k)
      = l.filter (fun t => tsKey t == k) := by
  have hall : ∀ a ∈ l.filter (fun t => tsKey t == k),
      ∀ b ∈ l.filter (fun t => tsKey t == k), tsGe a b := by
    intro a ha b hb
    have ha' := (List.mem_filter.mp ha).2
    have hb' := (List.mem_filter.mp hb).2
    simp only [beq_iff_eq] at ha' hb'
    unfold tsGe
    rw [ha', hb']
    exact pyStrLe_refl k
  have hpw : (l.filter (fun t => tsKey t == k)).Pairwise tsGe :=
    List.pairwise_of_forall_mem_list hall
  have hsub : List.Sublist (l.filter (fun t => tsKey t == k)) (sortByTsDesc l) :=
    List.sublist_insertionSort hpw (List.filter_sublist l)
  have hfun : (fun t : Trend => (tsKey t == k) && (tsKey t == k))
      = (fun t : Trend => tsKey t == k) := by
    funext t; cases h : (tsKey t == k) <;> simp [h]
  have hsub2 : List.Sublist (l.filter (fun t => tsKey t == k))
      ((sortByTsDesc l).filter (fun t => tsKey t == k)) := by
    have h2 := hsub.filter (fun t => tsKey t == k)
    rwa [List.filter_filter, hfun] at h2
  have hperm : List.Perm ((sortByTsDesc l).filter (fun t => tsKey t == k))
      (l.filter (fun t => tsKey t == k)) :=
    (sortByTsDesc_perm l).filter _
  exact (hsub2.eq_of_length hperm.length_eq.symm).symm

/-! ## Claim theorems -/

/-- C1: the claim is right about the score formula written in
`_calculate_score` — on that arithmetic, stars=200, forks=50 scores 135.0
when updated 0 days ago and 115.0 at 40 days (or at the unparsable-date
sentinel 3650) — but the code never returns it: `github_tool.py` never
imports `datetime`, so the function raises `NameError` on every call whose
`updated_at` is a string (present or defaulted), and the
`except (ValueError, TypeError)` clause does not catch it. -/
theorem c1_calculate_score_raises_nameError :
    calculateScore [("stars", JVal.num 200), ("forks", JVal.num 50),
        ("updated_at", JVal.str "2024-03-31T12:00:00Z")]
      = Except.error PyExc.nameError
    ∧ calculateScore [("stars", JVal.num 200), ("forks", JVal.num 50)]
      = Except.error PyExc.nameError
    ∧ scoreFormula 200 50 0 = 135
    ∧ scoreFormula 200 50 40 = 115
    ∧ scoreFormula 200 50 3650 = 115 := by
  refine ⟨rfl, rfl, ?_, ?_, ?_⟩ <;>
    norm_num [scoreFormula, round2, roundHalfEven, Rat.floor]

/-- C7: `clear_memory(keep_preferences=True)` empties `trends` and
`session_data` and leaves `user_preferences` unchanged;
`clear_memory(keep_preferences=False)` empties all three. -/
theorem c7_clear_memory_preferences (now : String) (ctx : ContextDict)
    (tfile : FileSt) (cfile : CtxFileSt) (tFault cFault : WriteFault) :
    ((clearMemory now true ctx tfile cfile tFault cFault).2.1.trends = []
      ∧ (clearMemory now true ctx tfile cfile tFault cFault).2.2.1.session_data
          = []
      ∧ (clearMemory now true ctx tfile cfile tFault
          cFault).2.2.1.user_preferences = ctx.user_preferences)
    ∧ ((clearMemory now false ctx tfile cfile tFault cFault).2.1.trends = []
      ∧ (clearMemory now false ctx tfile cfile tFault cFault).2.2.1.session_data
          = []
      ∧ (clearMemory now false ctx tfile cfile tFault
          cFault).2.2.1.user_preferences = []) :=
  ⟨⟨rfl, rfl, rfl⟩, ⟨rfl, rfl, rfl⟩⟩

/-- C8: `_load_trends` fails soft: an absent file and an unreadable/corrupt
file both yield the empty default `{last_updated: now, trends: []}` (no
exception escapes — the embedding is a total function), and in the absent
case the default is persisted to the file (shown for a fault-free write; the
code ignores the boolean result of that `_save_trends` call). -/
theorem c8_load_trends_fails_soft (now : String) (fault : WriteFault)
    (raw : String) :
    (loadTrends now FileSt.absent fault).1 = ⟨now, []⟩
    ∧ (loadTrends now (FileSt.corrupt raw) fault).1 = ⟨now, []⟩
    ∧ (loadTrends now (FileSt.corrupt raw) fault).2 = FileSt.corrupt raw
    ∧ loadTrends now FileSt.absent WriteFault.ok
        = (⟨now, []⟩, FileSt.stored ⟨now, []⟩) :=
  ⟨rfl, rfl, rfl, rfl⟩

/-- C10: `clear_memory` returns `True` whenever persisting the emptied trend
store fails or persisting the emptied context fails (either one, or both) —
the boolean reflects only that no exception escaped, not durability. -/
theorem c10_clear_memory_returns_true (now : String) (keep : Bool)
    (ctx : ContextDict) (tfile : FileSt) (cfile : CtxFileSt)
    (tFault cFault : WriteFault)
    (_h : (saveTrends tfile ⟨now, []⟩ tFault).1 = false
      ∨ (saveContext cfile
          ⟨now, if keep then ctx.user_preferences else [], []⟩ cFault).1
        = false) :
    (clearMemory now keep ctx tfile cfile tFault cFault).1 = true :=
  rfl

/-- Witness for C10 at a state where exactly one save fails: the trend store
write fails at `open` while the context write succeeds. -/
theorem c10_witness :
    ((saveTrends FileSt.absent ⟨"2024-01-01 00:00:00", []⟩
          WriteFault.openFail).1 = false
      ∨ (saveContext CtxFileSt.absent
          ⟨"2024-01-01 00:00:00",
            if true then ([] : PyDict) else [], []⟩ WriteFault.ok).1
        = false)
    ∧ (clearMemory "2024-01-01 00:00:00" true ⟨"2023-12-31 00:00:00", [], []⟩
        FileSt.absent CtxFileSt.absent WriteFault.openFail
        WriteFault.ok).1 = true :=
  ⟨Or.inl rfl,
    c10_clear_memory_returns_true "2024-01-01 00:00:00" true
      ⟨"2023-12-31 00:00:00", [], []⟩ FileSt.absent CtxFileSt.absent
      WriteFault.openFail WriteFault.ok (Or.inl rfl)⟩

/-- C5: for a record without a `timestamp` field, `add_trend` stores the
record stamped with the insertion-time clock read (the string the code
produces with `strftime("%Y-%m-%d %H:%M:%S")`), appends it at the end of the
`trends` sequence with no deduplication, and sets `last_updated` to the same
clock read; on a fault-free write the whole store is persisted. -/
theorem c5_add_trend_stamps_timestamp (now : String) (st : TrendsDict)
    (trend : Trend) (file : FileSt) (fault : WriteFault)
    (h : hasKey trend "timestamp" = false) :
    (addTrend now st trend file fault).2.1.trends
        = st.trends ++ [dset trend "timestamp" (JVal.str now)]
    ∧ (addTrend now st trend file fault).2.1.last_updated = now
    ∧ dget (dset trend "timestamp" (JVal.str now)) "timestamp"
        = some (JVal.str now)
    ∧ (fault = WriteFault.ok → (addTrend now st trend file fault).2.2
        = FileSt.stored
            ⟨now, st.trends ++ [dset trend "timestamp" (JVal.str now)]⟩) := by
  refine ⟨?_, rfl, dget_dset_self trend "timestamp" (JVal.str now), ?_⟩
  · simp [addTrend, h]
  · intro hf
    subst hf
    simp [addTrend, h, saveTrends]

theorem c5_witness :
    hasKey [("title", JVal.str "x")] "timestamp" = false
    ∧ ((addTrend "2024-01-02 03:04:05" ⟨"2024-01-01 00:00:00", []⟩
          [("title", JVal.str "x")] FileSt.absent WriteFault.ok).2.1.trends
        = [] ++ [dset [("title", JVal.str "x")] "timestamp"
            (JVal.str "2024-01-02 03:04:05")]
      ∧ (addTrend "2024-01-02 03:04:05" ⟨"2024-01-01 00:00:00", []⟩
          [("title", JVal.str "x")] FileSt.absent
          WriteFault.ok).2.1.last_updated = "2024-01-02 03:04:05"
      ∧ dget (dset [("title", JVal.str "x")] "timestamp"
            (JVal.str "2024-01-02 03:04:05")) "timestamp"
          = some (JVal.str "2024-01-02 03:04:05")
      ∧ (WriteFault.ok = WriteFault.ok →
          (addTrend "2024-01-02 03:04:05" ⟨"2024-01-01 00:00:00", []⟩
            [("title", JVal.str "x")] FileSt.absent WriteFault.ok).2.2
          = FileSt.stored ⟨"2024-01-02 03:04:05",
              [] ++ [dset [("title", JVal.str "x")] "timestamp"
                (JVal.str "2024-01-02 03:04:05")]⟩)) :=
  ⟨by decide,
    c5_add_trend_stamps_timestamp "2024-01-02 03:04:05"
      ⟨"2024-01-01 00:00:00", []⟩ [("title", JVal.str "x")] FileSt.absent
      WriteFault.ok (by decide)⟩

set_option maxRecDepth 40000 in
/-- C4 fails on the code: when `json.dump` raises mid-write (here after 2
characters), `add_trend` does return `false`, but the previous on-disk
content is destroyed — `open(_, "w")` already truncated the file, so it is
left holding a partial prefix of the new serialization, not the old store. -/
theorem c4_counterexample :
    (addTrend "2024-01-02 03:04:05" ⟨"2024-01-01 00:00:00", []⟩
        [("title", JVal.str "x")]
        (FileSt.stored ⟨"2024-01-01 00:00:00", []⟩)
        (WriteFault.dumpFail 2)).1 = false
    ∧ (addTrend "2024-01-02 03:04:05" ⟨"2024-01-01 00:00:00", []⟩
        [("title", JVal.str "x")]
        (FileSt.stored ⟨"2024-01-01 00:00:00", []⟩)
        (WriteFault.dumpFail 2)).2.2
      ≠ FileSt.stored ⟨"2024-01-01 00:00:00", []⟩
    ∧ (addTrend "2024-01-02 03:04:05" ⟨"2024-01-01 00:00:00", []⟩
        [("title", JVal.str "x")]
        (FileSt.stored ⟨"2024-01-01 00:00:00", []⟩)
        (WriteFault.dumpFail 2)).2.2 = FileSt.corrupt "\x7b\n" := by
  refine ⟨rfl, fun h => FileSt.noConfusion h, ?_⟩
  decide

/-- C4 amended: when persistence fails, `add_trend` returns `false` and never
raises; if `open(_, "w")` itself fails the previous file content survives,
but a failure inside `json.dump` (after `k` characters) leaves the file
truncated to a prefix of the new serialization. -/
theorem c4_add_trend_persistence_amended (now : String) (st : TrendsDict)
    (trend : Trend) (file : FileSt) (k : Nat) :
    ((addTrend now st trend file WriteFault.openFail).1 = false
      ∧ (addTrend now st trend file WriteFault.openFail).2.2 = file)
    ∧ ((addTrend now st trend file (WriteFault.dumpFail k)).1 = false
      ∧ (addTrend now st trend file (WriteFault.dumpFail k)).2.2
          = FileSt.corrupt ((encodeTrends
              (addTrend now st trend file (WriteFault.dumpFail k)).2.1).take
            k)) :=
  ⟨⟨rfl, rfl⟩, ⟨rfl, rfl⟩⟩

/-- C6: `get_recent_trends(n)` returns the `n` records with the greatest
timestamp strings — the first `n` of a stable descending sort of the store —
in non-increasing key order, with ties kept in original relative order
(the per-key filter equality), without mutating anything (the embedding is a
pure read of `st`); `n = 0` gives `[]` and `n ≥` store size returns the whole
store sorted.  The hypothesis restricts to stores whose `timestamp` values
are strings, the setting of the claim (mixed-type values would make Python's
`sorted` raise `TypeError`, caught to return `[]`). -/
theorem c6_get_recent_trends (st : TrendsDict) (n : Nat)
    (_hts : ∀ t ∈ st.trends, tsOk t = true) :
    getRecentTrends st n = (sortByTsDesc st.trends).take n
    ∧ (getRecentTrends st n).Pairwise tsGe
    ∧ (getRecentTrends st n).length = min n st.trends.length
    ∧ List.Perm (getRecentTrends st n ++ (sortByTsDesc st.trends).drop n)
        st.trends
    ∧ (∀ a ∈ getRecentTrends st n, ∀ b ∈ (sortByTsDesc st.trends).drop n,
        tsGe a b)
    ∧ (∀ k, (sortByTsDesc st.trends).filter (fun t => tsKey t == k)
        = st.trends.filter (fun t => tsKey t == k))
    ∧ (n = 0 → getRecentTrends st n = [])
    ∧ (st.trends.length ≤ n → getRecentTrends st n = sortByTsDesc st.trends) := by
  refine ⟨rfl, ?_, ?_, ?_, ?_, fun k => sortByTsDesc_filter_key st.trends k,
    ?_, ?_⟩
  · exact List.Pairwise.sublist (List.take_sublist n _)
      (sortByTsDesc_pairwise st.trends)
  · rw [getRecentTrends, List.length_take, sortByTsDesc_length]
  · rw [getRecentTrends, List.take_append_drop]
    exact sortByTsDesc_perm st.trends
  · have hp := sortByTsDesc_pairwise st.trends
    rw [← List.take_append_drop n (sortByTsDesc st.trends)] at hp
    exact fun a ha b hb => (List.pairwise_append.mp hp).2.2 a ha b hb
  · intro h; subst h; rfl
  · intro h
    exact List.take_of_length_le (by rw [sortByTsDesc_length]; exact h)

theorem c6_witness :
    (∀ t ∈ exStoreC6.trends, tsOk t = true)
    ∧ (getRecentTrends exStoreC6 1 = (sortByTsDesc exStoreC6.trends).take 1
      ∧ (getRecentTrends exStoreC6 1).Pairwise tsGe
      ∧ (getRecentTrends exStoreC6 1).length = min 1 exStoreC6.trends.length
      ∧ List.Perm (getRecentTrends exStoreC6 1
          ++ (sortByTsDesc exStoreC6.trends).drop 1) exStoreC6.trends
      ∧ (∀ a ∈ getRecentTrends exStoreC6 1,
          ∀ b ∈ (sortByTsDesc exStoreC6.trends).drop 1, tsGe a b)
      ∧ (∀ k, (sortByTsDesc exStoreC6.trends).filter (fun t => tsKey t == k)
          = exStoreC6.trends.filter (fun t => tsKey t == k))
      ∧ (1 = 0 → getRecentTrends exStoreC6 1 = [])
      ∧ (exStoreC6.trends.length ≤ 1 → getRecentTrends exStoreC6 1
          = sortByTsDesc exStoreC6.trends)) :=
  ⟨by decide, c6_get_recent_trends exStoreC6 1 (by decide)⟩

/-- When every discovered agent's store loads, the accumulation loop of
`consolidate_trends` produces exactly the per-agent windowed, tagged records
in enumeration order. -/
theorem collectAgents_all_loaded (now days : Int)
    (stores : List (String × TrendsDict)) :
    collectAgents now days
        (stores.map (fun p => (p.1, LoadResult.loaded p.2)))
      = Except.ok (windowedAll now days stores) := by
  induction stores with
  | nil => rfl
  | cons p rest ih =>
    simp only [List.map_cons, collectAgents, ih, windowedAll,
      List.flatten_cons, bind, Except.bind]

set_option maxRecDepth 100000 in
/-- C3: consolidation with all stores readable.  General part: the report is
`ok` with `agent_count` the number of discovered agents (contributing or
not), `trend_count` the length of its `trends`, and `trends` the stable
descending sort (by timestamp string) of the per-agent windowed tagged
records; a record survives iff its store's record has a string `timestamp`
that strptime parses with `(now - t).days ≤ lookback` (`keepTrend`), and
equal timestamps keep accumulation order (the per-key filter equality).
Example part: the spec's two-agent example (ages 1, 10, 40 and 5, 20 days,
lookback 30) yields the 4 surviving records newest-first, `trend_count = 4`,
`agent_count = 2`. -/
theorem c3_consolidate_window_sort :
    (∀ (now days : Int) (stores : List (String × TrendsDict)),
      consolidateTrends now days
          (stores.map (fun p => (p.1, LoadResult.loaded p.2)))
        = Report.ok now days
            (sortByTsDesc (windowedAll now days stores)).length stores.length
            (sortByTsDesc (windowedAll now days stores))
      ∧ List.Perm (sortByTsDesc (windowedAll now days stores))
          (windowedAll now days stores)
      ∧ (sortByTsDesc (windowedAll now days stores)).Pairwise tsGe
      ∧ (∀ k, (sortByTsDesc (windowedAll now days stores)).filter
            (fun t => tsKey t == k)
          = (windowedAll now days stores).filter (fun t => tsKey t == k))
      ∧ (∀ t, t ∈ windowedAll now days stores ↔
          ∃ aid st, (aid, st) ∈ stores ∧ ∃ t0 ∈ st.trends,
            keepTrend now days t0 = true ∧ t = tagTrend aid t0))
    ∧ consolidateTrends exNow 30
        [("agent_a", LoadResult.loaded exStoreA),
         ("agent_b", LoadResult.loaded exStoreB)]
      = Report.ok exNow 30 4 2
          [[("title", JVal.str "a1"),
            ("timestamp", JVal.str "2024-03-30 12:00:00"),
            ("agent_id", JVal.str "agent_a")],
           [("title", JVal.str "b5"),
            ("timestamp", JVal.str "2024-03-26 12:00:00"),
            ("agent_id", JVal.str "agent_b")],
           [("title", JVal.str "a10"),
            ("timestamp", JVal.str "2024-03-21 12:00:00"),
            ("agent_id", JVal.str "agent_a")],
           [("title", JVal.str "b20"),
            ("timestamp", JVal.str "2024-03-11 12:00:00"),
            ("agent_id", JVal.str "agent_b")]] := by
  constructor
  · intro now days stores
    refine ⟨?_, sortByTsDesc_perm _, sortByTsDesc_pairwise _,
      fun k => sortByTsDesc_filter_key _ k, ?_⟩
    · simp only [consolidateTrends, collectAgents_all_loaded]
      have hlen : (List.map (fun p => (p.1, LoadResult.loaded p.2))
          stores).length = stores.length := List.length_map _ _
      rw [hlen]
    · intro t
      simp only [windowedAll, List.mem_flatten, List.mem_map,
        List.mem_filter]
      constructor
      · rintro ⟨l, ⟨⟨aid, st⟩, hp, rfl⟩, ht⟩
        simp only [List.mem_map, List.mem_filter] at ht
        obtain ⟨t0, ⟨ht0, hk⟩, rfl⟩ := ht
        exact ⟨aid, st, hp, t0, ht0, hk, rfl⟩
      · rintro ⟨aid, st, hp, t0, ht0, hk, rfl⟩
        refine ⟨List.map (tagTrend aid)
          (List.filter (keepTrend now days) st.trends),
          ⟨⟨aid, st⟩, hp, rfl⟩, ?_⟩
        simp only [List.mem_map, List.mem_filter]
        exact ⟨t0, ⟨ht0, hk⟩, rfl⟩
  · decide

set_option maxRecDepth 100000 in
/-- C2 fails on the code: only a *missing* store file is skipped (the
`os.path.exists` guard).  When one agent's existing store is unreadable or
malformed JSON, `json.load` raises inside the loop and the exception is
caught only by `consolidate_trends`'s outer `except`, which discards
everything and returns the error dictionary with an empty `trends` list — the
other agents' surviving records are lost.  Here agent_b alone would have
contributed 2 windowed records. -/
theorem c2_counterexample :
    consolidateTrends exNow 30
        [("agent_a", LoadResult.raises "Expecting value: line 1 column 1 (char 0)"),
         ("agent_b", LoadResult.loaded exStoreB)]
      = Report.err exNow "Expecting value: line 1 column 1 (char 0)" []
    ∧ consolidateTrends exNow 30 [("agent_b", LoadResult.loaded exStoreB)]
      = Report.ok exNow 30 2 1
          [[("title", JVal.str "b5"),
            ("timestamp", JVal.str "2024-03-26 12:00:00"),
            ("agent_id", JVal.str "agent_b")],
           [("title", JVal.str "b20"),
            ("timestamp", JVal.str "2024-03-11 12:00:00"),
            ("agent_id", JVal.str "agent_b")]] := by
  exact ⟨by decide, by decide⟩

/-- C2 amended: `consolidate_trends` never raises (the embedding is total),
and when a discovered agent's store read raises — whatever comes after it —
the call returns the error report carrying that exception's message and an
*empty* `trends` list; the records of the other agents are not returned.
(Agents whose store file is merely missing are skipped by the
`os.path.exists` guard and do not trigger this.) -/
theorem c2_consolidate_amended (now days : Int)
    (pre post : List (String × LoadResult)) (aid msg : String)
    (hpre : ∀ p ∈ pre, isRaises p.2 = false) :
    consolidateTrends now days
        (pre ++ (aid, LoadResult.raises msg) :: post)
      = Report.err now msg [] := by
  have hcol : collectAgents now days
      (pre ++ (aid, LoadResult.raises msg) :: post) = Except.error msg := by
    induction pre with
    | nil => rfl
    | cons p rest ih =>
      have hp : isRaises p.2 = false := hpre p (List.mem_cons_self p rest)
      have ih' := ih (fun q hq => hpre q (List.mem_cons_of_mem p hq))
      obtain ⟨a, lr⟩ := p
      cases lr with
      | missing => simpa [collectAgents] using ih'
      | raises m => simp [isRaises] at hp
      | loaded st =>
        simp only [List.cons_append, collectAgents, List.append_eq, ih',
          bind, Except.bind]
  simp only [consolidateTrends, hcol]

theorem c2_witness :
    (∀ p ∈ ([("agent_b", LoadResult.loaded exStoreB)] :
        List (String × LoadResult)), isRaises p.2 = false)
    ∧ consolidateTrends exNow 30
        ([("agent_b", LoadResult.loaded exStoreB)]
          ++ ("agent_a", LoadResult.raises "boom") :: [])
      = Report.err exNow "boom" [] :=
  ⟨by decide,
    c2_consolidate_amended exNow 30 [("agent_b", LoadResult.loaded exStoreB)]
      [] "agent_a" "boom" (by decide)⟩

theorem foldl_pair_append {α β : Type} (g : α → List β) :
    ∀ (tags : List α) (q : List α) (r : List β),
      tags.foldl (fun acc tag => (acc.1 ++ [tag], acc.2 ++ g tag)) (q, r)
        = (q ++ tags, r ++ (tags.map g).flatten) := by
  intro tags
  induction tags with
  | nil => intro q r; simp
  | cons t ts ih =>
    intro q r
    simp only [List.foldl_cons, ih, List.map_cons, List.flatten_cons]
    simp

theorem foldl_append_eq_flatten {α β : Type} (f : α → List β) :
    ∀ (l : List α) (r : List β),
      l.foldl (fun acc c => acc ++ f c) r = r ++ (l.map f).flatten := by
  intro l
  induction l with
  | nil => intro r; simp
  | cons c cs ih =>
    intro r
    simp only [List.foldl_cons, ih, List.map_cons, List.flatten_cons]
    simp

/-- C9 fails for `tag_count == 0`: with no configured tags, `collect_data`
computes `repos_per_tag = max_repos` but the `for tag in self.tags` loop body
never runs, so *no* search query is issued (the query log is empty, not a
single unfiltered query) and the result is the empty list — even though the
search collaborator would return a repository for any query. -/
theorem c9_counterexample :
    collectData [] exRun 50 = ([], [])
    ∧ exRun "any" ≠ []
    ∧ (collectData [] exRun 50).1.length ≠ 1 := by
  refine ⟨rfl, by simp [exRun], by decide⟩

/-- C9 amended: with `tag_count > 0`, each tag's contribution to
`collect_data` is `tagChunk` of its search result, capped at
`floor(max_repos / tag_count)` records, one query per tag; likewise each
arXiv category is asked for at most `floor(max_papers / category_count)`
papers (given the collaborator honors `max_results`).  For `tag_count == 0`
the call still completes and returns a list, but it is empty and no query is
made (`c9_counterexample`). -/
theorem c9_collection_caps_amended (tags : List String)
    (run : String → List PyDict) (maxRepos : Nat)
    (categories : List String) (search : String → Nat → Option (List PyDict))
    (maxPapers : Nat) (htags : tags ≠ [])
    (hsearch : ∀ c n, ((search c n).getD []).length ≤ n) :
    ((collectData tags run maxRepos).1 = tags
      ∧ (collectData tags run maxRepos).2
          = (tags.map
              (fun tag => tagChunk (maxRepos / tags.length) (run tag))).flatten
      ∧ ∀ tag, (tagChunk (maxRepos / tags.length) (run tag)).length
          ≤ maxRepos / tags.length)
    ∧ (getRecentPapers categories search maxPapers
        = (categories.map
            (fun c => (search c (maxPapers / categories.length)).getD
              [])).flatten
      ∧ ∀ c, ((search c (maxPapers / categories.length)).getD []).length
          ≤ maxPapers / categories.length) := by
  have hie : tags.isEmpty = false := by
    cases tags with
    | nil => exact absurd rfl htags
    | cons t ts => rfl
  have hcd : collectData tags run maxRepos
      = (tags, (tags.map
          (fun tag => tagChunk (maxRepos / tags.length) (run tag))).flatten) := by
    unfold collectData
    rw [hie]
    simpa using foldl_pair_append
      (fun tag => tagChunk (maxRepos / tags.length) (run tag)) tags [] []
  refine ⟨⟨by rw [hcd], by rw [hcd], ?_⟩, ?_, fun c => hsearch c _⟩
  · intro tag
    unfold tagChunk
    cases run tag with
    | nil => simp
    | cons r0 rs =>
      by_cases h : hasKey r0 "error"
      · simp [h]
      · simp only [h, if_false, Bool.false_eq_true]
        exact List.length_take_le _ _
  · unfold getRecentPapers
    simpa using foldl_append_eq_flatten
      (fun c => (search c (maxPapers / categories.length)).getD [])
      categories []

theorem c9_witness :
    ((["a", "b"] : List String) ≠ []
      ∧ (∀ c n, ((exSearch c n).getD []).length ≤ n))
    ∧ (((collectData ["a", "b"] exRun 10).1 = ["a", "b"]
      ∧ (collectData ["a", "b"] exRun 10).2
          = ((["a", "b"] : List String).map
              (fun tag => tagChunk (10 / (["a", "b"] : List String).length)
                (exRun tag))).flatten
      ∧ ∀ tag, (tagChunk (10 / (["a", "b"] : List String).length)
          (exRun tag)).length ≤ 10 / (["a", "b"] : List String).length)
    ∧ (getRecentPapers ["x"] exSearch 7
        = ((["x"] : List String).map
            (fun c => (exSearch c (7 / (["x"] : List String).length)).getD
              [])).flatten
      ∧ ∀ c, ((exSearch c (7 / (["x"] : List String).length)).getD []).length
          ≤ 7 / (["x"] : List String).length)) :=
  ⟨⟨by decide, fun c n => by simp [exSearch]⟩,
    c9_collection_caps_amended ["a", "b"] exRun 10 ["x"] exSearch 7
      (by decide) (fun c n => by simp [exSearch])⟩
